import Mathlib

/-!
Verification of the tamagotchi_ai simulation-and-training pipeline.

Shallow embedding of:
  * `app/models/pet.py`        — the need-decay engine (`Pet`);
  * `simulation/simulator.py`  — `calculate_reward` and `run_episode`;
  * `simulation/agents.py`     — the random agent's choice function;
  * `training/rl_utils.py`     — discretization and the state index;
  * `training/q_learning_agent.py` — the Bellman update;
  * `training/train_rl_agent.py`   — the per-transition training step.

Machine integers are modelled as `ℤ`, Python floats as `ℚ` (the decay and
reward arithmetic is exact decimal arithmetic on the reachable values),
wall-clock timestamps as `ℚ` seconds.  Python's `datetime.utcnow()` and the
seeded PRNG are modelled as explicit input streams consumed in call order.
-/

namespace Tamagotchi

/-- Python `int(x)` on a float: truncation toward zero. -/
def pyInt (q : ℚ) : ℤ := if 0 ≤ q then ⌊q⌋ else ⌈q⌉

/-- Python `round(x)` to the nearest integer, ties to even (banker's rounding). -/
def pyRound (q : ℚ) : ℤ :=
  if q - ⌊q⌋ < 1/2 then ⌊q⌋
  else if 1/2 < q - ⌊q⌋ then ⌊q⌋ + 1
  else if ⌊q⌋ % 2 = 0 then ⌊q⌋ else ⌊q⌋ + 1

/-- Python `round(x, 2)`: round to two decimal places. -/
def pyRound2 (q : ℚ) : ℚ := (pyRound (q * 100) : ℚ) / 100

/-- Python `a // b` on ints: floor division. -/
def pyFloorDiv (a b : ℤ) : ℤ := Int.fdiv a b

/-! ## `app/models/pet.py` -/

/-- The four needs of a pet (`PetNeeds`), machine ints modelled as `ℤ`.
The pydantic field constraints give defaults hunger=50, happiness=50,
energy=100, cleanliness=70. -/
structure PetNeeds where
  hunger : ℤ
  happiness : ℤ
  energy : ℤ
  cleanliness : ℤ
deriving DecidableEq, Repr

/-- Default `PetNeeds()`. -/
def PetNeeds.default : PetNeeds :=
  { hunger := 50, happiness := 50, energy := 100, cleanliness := 70 }

/-- `PetState`: the serializable pet state.  `id` abstracts the UUID as a
number, timestamps are `ℚ` seconds since an epoch. -/
structure PetState where
  id : ℕ
  name : String
  created_at : ℚ
  last_updated_at : ℚ
  needs : PetNeeds
  is_alive : Bool
  age_days : ℤ
deriving DecidableEq, Repr

/-- The `Pet` object: the state plus the private decay-timing fields
`_last_tick_time` and `_last_age_update_time`. -/
structure Pet where
  state : PetState
  last_tick_time : ℚ
  last_age_update_time : ℚ
deriving DecidableEq, Repr

/-- Decay rates per hour from `Pet.__init__`. -/
def hunger_increase_rate_per_hour : ℚ := 8
def happiness_decay_rate_per_hour : ℚ := 6
def energy_decay_rate_per_hour : ℚ := 7
def cleanliness_decay_rate_per_hour : ℚ := 5

/-- `Pet.__init__(name)`: fresh pet with default needs; the four
`datetime.utcnow()` samples taken during construction are passed in
(created_at, last_updated_at, _last_tick_time, _last_age_update_time). -/
def Pet.mk_new (id : ℕ) (name : String) (t0 t1 t2 t3 : ℚ) : Pet :=
  { state := { id := id, name := name, created_at := t0, last_updated_at := t1,
               needs := PetNeeds.default, is_alive := true, age_days := 0 },
    last_tick_time := t2, last_age_update_time := t3 }

/-- `Pet.tick()` with the sampled `now = datetime.utcnow()` made explicit. -/
def Pet.tick (p : Pet) (now : ℚ) : Pet :=
  if !p.state.is_alive then p
  else
    let time_delta_seconds := now - p.last_tick_time
    let hours_passed := time_delta_seconds / 3600
    let n := p.state.needs
    let hunger := min 100 (n.hunger + pyInt (hunger_increase_rate_per_hour * hours_passed))
    let happiness := max 0 (n.happiness - pyInt (happiness_decay_rate_per_hour * hours_passed))
    let energy := max 0 (n.energy - pyInt (energy_decay_rate_per_hour * hours_passed))
    let cleanliness := max 0 (n.cleanliness - pyInt (cleanliness_decay_rate_per_hour * hours_passed))
    let age_delta_seconds := now - p.last_age_update_time
    let age_days :=
      if age_delta_seconds ≥ 86400
      then p.state.age_days + ⌊age_delta_seconds / 86400⌋
      else p.state.age_days
    let last_age_update_time :=
      if age_delta_seconds ≥ 86400
      then p.last_age_update_time + (⌊age_delta_seconds / 86400⌋ : ℚ) * 86400
      else p.last_age_update_time
    let is_alive :=
      if hunger ≥ 100 ∨ energy ≤ 0 ∨ happiness ≤ 0 ∨ cleanliness ≤ 0
      then false else p.state.is_alive
    { state := { p.state with
        needs := { hunger := hunger, happiness := happiness,
                   energy := energy, cleanliness := cleanliness },
        is_alive := is_alive, age_days := age_days, last_updated_at := now },
      last_tick_time := now, last_age_update_time := last_age_update_time }

/-- `Pet.feed(amount)`; the internal `tick()` samples `now`. -/
def Pet.feed (p : Pet) (amount : ℤ) (now : ℚ) : Pet :=
  if !p.state.is_alive then p
  else
    let n := p.state.needs
    let p' := { p with state := { p.state with needs :=
      { n with hunger := max 0 (n.hunger - amount),
               happiness := min 100 (n.happiness + pyFloorDiv amount 5) } } }
    p'.tick now

/-- `Pet.play(duration_effect)`. -/
def Pet.play (p : Pet) (duration_effect : ℤ) (now : ℚ) : Pet :=
  if !p.state.is_alive then p
  else
    let n := p.state.needs
    let p' := { p with state := { p.state with needs :=
      { n with happiness := min 100 (n.happiness + duration_effect),
               energy := max 0 (n.energy - pyFloorDiv duration_effect 2) } } }
    p'.tick now

/-- `Pet.sleep(duration_effect)`. -/
def Pet.sleep (p : Pet) (duration_effect : ℤ) (now : ℚ) : Pet :=
  if !p.state.is_alive then p
  else
    let n := p.state.needs
    let p' := { p with state := { p.state with needs :=
      { n with energy := min 100 (n.energy + duration_effect),
               hunger := min 100 (n.hunger + pyFloorDiv duration_effect 10) } } }
    p'.tick now

/-- `Pet.clean(amount)`. -/
def Pet.clean (p : Pet) (amount : ℤ) (now : ℚ) : Pet :=
  if !p.state.is_alive then p
  else
    let n := p.state.needs
    let p' := { p with state := { p.state with needs :=
      { n with cleanliness := min 100 (n.cleanliness + amount),
               happiness := min 100 (n.happiness + pyFloorDiv amount 8) } } }
    p'.tick now

/-- One pet operation, with its parameters and the wall-clock sample its
internal tick sees. -/
inductive Op where
  | tick (now : ℚ)
  | feed (amount : ℤ) (now : ℚ)
  | play (duration_effect : ℤ) (now : ℚ)
  | sleep (duration_effect : ℤ) (now : ℚ)
  | clean (amount : ℤ) (now : ℚ)

/-- Apply one operation to a pet. -/
def applyOp (p : Pet) : Op → Pet
  | .tick now => p.tick now
  | .feed a now => p.feed a now
  | .play d now => p.play d now
  | .sleep d now => p.sleep d now
  | .clean a now => p.clean a now

/-- Apply a sequence of operations in order. -/
def applyOps (p : Pet) (ops : List Op) : Pet := ops.foldl applyOp p

/-! ## `simulation/simulator.py` — the reward function -/

/-- `calculate_reward` from `simulation/simulator.py`, translated line by
line: the accumulator `reward` is threaded through the if/elif chain of the
source; `action_taken` is accepted but (as in the source) unused. -/
def calculate_reward (previous_needs current_needs : PetNeeds)
    (action_taken : Option String) (is_alive_now was_alive_before : Bool) : ℚ :=
  if !is_alive_now ∧ was_alive_before then -200
  else if !is_alive_now then 0
  else
    let r0 : ℚ := 0
    let r1 :=
      if current_needs.hunger < previous_needs.hunger then
        r0 + ((previous_needs.hunger - current_needs.hunger : ℤ) : ℚ) * 0.2
      else if current_needs.hunger > 85 ∧ current_needs.hunger > previous_needs.hunger then
        r0 - ((current_needs.hunger - previous_needs.hunger : ℤ) : ℚ) * 0.3
      else r0
    let r2 :=
      if current_needs.happiness > previous_needs.happiness then
        r1 + ((current_needs.happiness - previous_needs.happiness : ℤ) : ℚ) * 0.3
      else if current_needs.happiness < 15 ∧ current_needs.happiness < previous_needs.happiness then
        r1 - ((previous_needs.happiness - current_needs.happiness : ℤ) : ℚ) * 0.4
      else r1
    let r3 :=
      if current_needs.energy > previous_needs.energy then
        r2 + ((current_needs.energy - previous_needs.energy : ℤ) : ℚ) * 0.15
      else if current_needs.energy < 15 ∧ current_needs.energy < previous_needs.energy then
        r2 - ((previous_needs.energy - current_needs.energy : ℤ) : ℚ) * 0.2
      else r2
    let r4 :=
      if current_needs.cleanliness > previous_needs.cleanliness then
        r3 + ((current_needs.cleanliness - previous_needs.cleanliness : ℤ) : ℚ) * 0.1
      else if current_needs.cleanliness < 15 ∧ current_needs.cleanliness < previous_needs.cleanliness then
        r3 - ((previous_needs.cleanliness - current_needs.cleanliness : ℤ) : ℚ) * 0.15
      else r3
    let r5 := if current_needs.hunger > 80 then r4 - 0.5 else r4
    let r6 := if current_needs.happiness < 20 then r5 - 1.0 else r5
    let r7 := if current_needs.energy < 20 then r6 - 0.5 else r6
    let r8 := if current_needs.cleanliness < 20 then r7 - 0.3 else r7
    let r9 :=
      if is_alive_now ∧ current_needs.hunger < 50 ∧ current_needs.happiness > 50 ∧
          current_needs.energy > 50 ∧ current_needs.cleanliness > 50
      then r8 + 1.0 else r8
    pyRound2 r9

/-- The §4.5 reference reward, written from the spec's words: rule 1 (alive
to dead, return −200 ignoring all else), rule 2 (already dead, return 0),
then the sum of per-need improvement/worsening terms (rule 3), the flat
bad-band penalties (rule 4) and the healthy-band bonus (rule 5), rounded to
two decimal places. -/
def rewardSpec (prev cur : PetNeeds) (is_alive_now was_alive_before : Bool) : ℚ :=
  if was_alive_before ∧ !is_alive_now then -200
  else if !is_alive_now then 0
  else
    pyRound2 (
      (if cur.hunger < prev.hunger then ((prev.hunger - cur.hunger : ℤ) : ℚ) * 0.2 else 0)
      + (if cur.hunger > 85 ∧ cur.hunger > prev.hunger then
           -(((cur.hunger - prev.hunger : ℤ) : ℚ) * 0.3) else 0)
      + (if cur.happiness > prev.happiness then
           ((cur.happiness - prev.happiness : ℤ) : ℚ) * 0.3 else 0)
      + (if cur.happiness < 15 ∧ cur.happiness < prev.happiness then
           -(((prev.happiness - cur.happiness : ℤ) : ℚ) * 0.4) else 0)
      + (if cur.energy > prev.energy then
           ((cur.energy - prev.energy : ℤ) : ℚ) * 0.15 else 0)
      + (if cur.energy < 15 ∧ cur.energy < prev.energy then
           -(((prev.energy - cur.energy : ℤ) : ℚ) * 0.2) else 0)
      + (if cur.cleanliness > prev.cleanliness then
           ((cur.cleanliness - prev.cleanliness : ℤ) : ℚ) * 0.1 else 0)
      + (if cur.cleanliness < 15 ∧ cur.cleanliness < prev.cleanliness then
           -(((prev.cleanliness - cur.cleanliness : ℤ) : ℚ) * 0.15) else 0)
      + (if cur.hunger > 80 then -(0.5 : ℚ) else 0)
      + (if cur.happiness < 20 then -(1.0 : ℚ) else 0)
      + (if cur.energy < 20 then -(0.5 : ℚ) else 0)
      + (if cur.cleanliness < 20 then -(0.3 : ℚ) else 0)
      + (if is_alive_now ∧ cur.hunger < 50 ∧ cur.happiness > 50 ∧
            cur.energy > 50 ∧ cur.cleanliness > 50 then (1.0 : ℚ) else 0))

/-! ## `training/rl_utils.py` -/

/-- The fixed action catalog `ACTIONS`. -/
def ACTIONS : List String :=
  ["feed_small", "feed_medium", "play_short", "play_long",
   "sleep_action", "clean_action", "do_nothing"]

def NUM_ACTIONS : ℕ := ACTIONS.length

def HUNGER_BINS : List ℤ := [0, 25, 50, 75, 100]
def HAPPINESS_BINS : List ℤ := [0, 25, 50, 75, 100]
def ENERGY_BINS : List ℤ := [0, 25, 50, 75, 100]
def CLEANLINESS_BINS : List ℤ := [0, 33, 66, 100]

def NUM_HUNGER_STATES : ℕ := HUNGER_BINS.length - 1
def NUM_HAPPINESS_STATES : ℕ := HAPPINESS_BINS.length - 1
def NUM_ENERGY_STATES : ℕ := ENERGY_BINS.length - 1
def NUM_CLEANLINESS_STATES : ℕ := CLEANLINESS_BINS.length - 1

def TOTAL_NUM_DISCRETE_STATES : ℕ :=
  NUM_HUNGER_STATES * NUM_HAPPINESS_STATES * NUM_ENERGY_STATES * NUM_CLEANLINESS_STATES

/-- The `for i in range(len(bins) - 1)` loop of `discretize_value`: first
index `i` (starting from `start`) with `bins[i] <= value < bins[i+1]`. -/
def findBin (value : ℤ) : List ℤ → ℕ → Option ℕ
  | a :: b :: rest, i =>
    if a ≤ value ∧ value < b then some i else findBin value (b :: rest) (i + 1)
  | _, _ => none

/-- `discretize_value(value, bins)`: `none` models the final
`raise ValueError` path; all other paths return the bin index. -/
def discretize_value (value : ℤ) (bins : List ℤ) : Option ℕ :=
  match findBin value bins 0 with
  | some i => some i
  | none =>
    if value = bins.getLastD 0 then some (bins.length - 2)
    else if value ≥ bins.getLastD 0 then some (bins.length - 2)
    else if value < bins.headD 0 then some 0
    else none

/-- `get_discrete_state_index(pet_needs)`; a `ValueError` raised by
`discretize_value` propagates as `none`. -/
def get_discrete_state_index (pet_needs : PetNeeds) : Option ℕ := do
  let h_idx ← discretize_value pet_needs.hunger HUNGER_BINS
  let p_idx ← discretize_value pet_needs.happiness HAPPINESS_BINS
  let e_idx ← discretize_value pet_needs.energy ENERGY_BINS
  let c_idx ← discretize_value pet_needs.cleanliness CLEANLINESS_BINS
  pure (h_idx * (NUM_HAPPINESS_STATES * NUM_ENERGY_STATES * NUM_CLEANLINESS_STATES)
        + p_idx * (NUM_ENERGY_STATES * NUM_CLEANLINESS_STATES)
        + e_idx * NUM_CLEANLINESS_STATES
        + c_idx)

/-! ## `training/q_learning_agent.py` — the Bellman update -/

/-- The dense Q-table, indexed by (discrete state, action index). -/
def QTable : Type := ℕ → ℕ → ℚ

/-- `np.max(q_table[s])`: maximum over the `NUM_ACTIONS` entries of row `s`. -/
def rowMax (q : QTable) (s : ℕ) : ℚ :=
  ((List.range NUM_ACTIONS).map (fun a => q s a)).foldl max (q s 0)

/-- `QLearningAgent.update_q_table(state_index, action_index, reward,
next_state_index, done)` acting on the table, with the agent's `lr` and
`gamma` as parameters. -/
def update_q_table (lr gamma : ℚ) (q : QTable) (state_index action_index : ℕ)
    (reward : ℚ) (next_state_index : ℕ) (done : Bool) : QTable :=
  let old_value := q state_index action_index
  let next_max_q := if done then 0 else rowMax q next_state_index
  let new_value := old_value + lr * (reward + gamma * next_max_q - old_value)
  fun s a => if s = state_index ∧ a = action_index then new_value else q s a

/-! ## `training/train_rl_agent.py` — one transition of the training loop -/

/-- One logged transition as the trainer reads it: each field is `Option`
because `transition.get(...)` yields `None` for a missing/null field.  The
`state`/`next_state` fields hold the needs dictionary extracted by
`get_pet_needs_from_state_dict`. -/
structure RawTransition where
  state : Option PetNeeds
  action : Option String
  reward : Option ℚ
  next_state : Option PetNeeds
  is_done : Option Bool
deriving Repr

/-- The body of the trainer's per-transition loop (`train_agent`, the inner
`for transition in episode_transitions`): returns `some` of the updated
table when a Q-update is applied, `none` when the transition is skipped
(missing data / discretization `ValueError` / unmappable action).  At the
`action_name == "invalid_action" or action_name is None` test of the source,
`action_name` cannot be `None` (the missing-data check already skipped that
case), so only the string comparison remains. -/
def processTransition (lr gamma : ℚ) (q : QTable) (t : RawTransition) : Option QTable :=
  match t.state, t.action, t.reward, t.next_state, t.is_done with
  | some state_dict, some action_name, some reward, some next_state_dict, some done =>
    match get_discrete_state_index state_dict, get_discrete_state_index next_state_dict with
    | some state_idx, some next_state_idx =>
      match ACTIONS.indexOf? action_name with
      | some action_idx =>
        some (update_q_table lr gamma q state_idx action_idx reward next_state_idx done)
      | none =>
        if action_name = "invalid_action" then
          if "do_nothing" ∈ ACTIONS then
            some (update_q_table lr gamma q state_idx (ACTIONS.indexOf "do_nothing")
                  reward next_state_idx done)
          else none
        else none
    | _, _ => none
  | _, _, _, _, _ => none

/-! ## `simulation/simulator.py` — `run_episode`

The agent is abstracted as a per-step choice function over the pet-state
snapshot (the repository's agents return one of `feed`/`play`/`sleep`/
`clean` with parameters, or `None`; a name that is not an attribute of
`Pet` takes the `invalid_action` branch).  `datetime.utcnow()` is an input
stream `clock : ℕ → ℚ` consumed in call order: indices 0–3 during
`Pet.__init__`, then two samples per step (the internal `tick` and the
record timestamp). -/

/-- An agent's chosen `(action_name, action_params)` tuple. -/
inductive AgentAction where
  | feed (amount : ℤ)
  | play (duration_effect : ℤ)
  | sleep (duration_effect : ℤ)
  | clean (amount : ℤ)
  | other (name : String)
deriving DecidableEq, Repr

/-- The action name the simulator logs for a choice that was applied
(`"invalid_action"` for a name with no matching `Pet` method). -/
def AgentAction.loggedName : AgentAction → String
  | .feed _ => "feed"
  | .play _ => "play"
  | .sleep _ => "sleep"
  | .clean _ => "clean"
  | .other _ => "invalid_action"

/-- Apply the agent's choice to the pet (`action_method(**action_params)`
for a valid name, `pet.tick()` for `None` or an invalid name); `now` is the
single `utcnow()` sample the internal tick consumes. -/
def applyChoice (pet : Pet) (choice : Option AgentAction) (now : ℚ) : Pet :=
  match choice with
  | none => pet.tick now
  | some (.feed a) => pet.feed a now
  | some (.play d) => pet.play d now
  | some (.sleep d) => pet.sleep d now
  | some (.clean a) => pet.clean a now
  | some (.other _) => pet.tick now

/-- One line of the episode log (`record` in `run_episode`). -/
structure TransitionRecord where
  step : ℕ
  state : PetState
  action : Option String
  action_params : Option AgentAction
  reward : ℚ
  next_state : PetState
  is_done : Bool
  pet_id : ℕ
  timestamp : ℚ
deriving DecidableEq, Repr

/-- The body of one loop iteration of `run_episode` on an alive pet: the
agent's choice is applied (`action_method(**params)` / `pet.tick()`), the
reward computed, and the `record` dict assembled.  `step` is the loop
index, `ci` the index of the iteration's first `utcnow()` sample. -/
def stepRecord (choose : ℕ → PetState → Option AgentAction) (clock : ℕ → ℚ)
    (step ci : ℕ) (pet : Pet) : TransitionRecord :=
  let choice := choose step pet.state
  let action_name := choice.map AgentAction.loggedName
  let pet' := applyChoice pet choice (clock ci)
  { step := step, state := pet.state, action := action_name,
    action_params := choice,
    reward := calculate_reward pet.state.needs pet'.state.needs action_name
      pet'.state.is_alive pet.state.is_alive,
    next_state := pet'.state, is_done := !pet'.state.is_alive,
    pet_id := pet.state.id, timestamp := clock (ci + 1) }

/-- The `for step in range(max_steps)` loop of `run_episode`:
`stepsLeft` is the remaining iteration budget, `step` the current loop
index, `ci` the index of the next unread clock sample. -/
def runSteps (choose : ℕ → PetState → Option AgentAction) (clock : ℕ → ℚ) :
    (stepsLeft : ℕ) → (step : ℕ) → (ci : ℕ) → Pet → List TransitionRecord
  | 0, _, _, _ => []
  | stepsLeft + 1, step, ci, pet =>
    if !pet.state.is_alive then []
    else
      let record := stepRecord choose clock step ci pet
      if record.is_done then [record]
      else record :: runSteps choose clock stepsLeft (step + 1) (ci + 2)
        (applyChoice pet (choose step pet.state) (clock ci))

/-- `run_episode(agent, pet_name, max_steps)`: build a fresh pet (its UUID
abstracted as `uuid`, its four construction-time clock samples at indices
0–3) and run the step loop. -/
def run_episode (choose : ℕ → PetState → Option AgentAction) (clock : ℕ → ℚ)
    (uuid : ℕ) (pet_name : String) (max_steps : ℕ) : List TransitionRecord :=
  runSteps choose clock max_steps 0 4
    (Pet.mk_new uuid pet_name (clock 0) (clock 1) (clock 2) (clock 3))

/-! ### `simulation/agents.py` — `RandomAgent`

Python's globally seeded Mersenne Twister is abstracted as the stream of
draw tuples one `choose_action` call can consume: the seed determines the
stream, so two runs from the same seed see the same stream. -/

/-- The pseudo-random draws available to the `step`-th `choose_action`
call: `r` for `random.random()`, one `randint` result per candidate action,
and the `random.choice` pick among the four candidates. -/
structure RandDraws where
  r : ℚ
  feed_amount : ℤ
  play_duration : ℤ
  sleep_duration : ℤ
  clean_amount : ℤ
  choice : ℕ
deriving Repr

/-- `RandomAgent.choose_action(pet_state)` driven by one draw tuple. -/
def randomAgentChoose (d : RandDraws) (pet_state : PetState) : Option AgentAction :=
  if !pet_state.is_alive ∨ d.r < 0.3 then none
  else
    [AgentAction.feed d.feed_amount, AgentAction.play d.play_duration,
     AgentAction.sleep d.sleep_duration, AgentAction.clean d.clean_amount].getD
      (d.choice % 4) (AgentAction.feed d.feed_amount)

/-- An episode of the Random Agent: the draw stream `draws` stands for the
seeded PRNG, `clock` for the real-time clock. -/
def run_episode_random (draws : ℕ → RandDraws) (clock : ℕ → ℚ)
    (uuid : ℕ) (pet_name : String) (max_steps : ℕ) : List TransitionRecord :=
  run_episode (fun step s => randomAgentChoose (draws step) s) clock uuid pet_name max_steps

/-! ## Characterization of `discretize_value` on the configured bins -/

lemma discretize_quartile (v : ℤ) :
    discretize_value v [0, 25, 50, 75, 100] =
      some (if v < 25 then 0 else if v < 50 then 1 else if v < 75 then 2 else 3) := by
  have hlast : ([0, 25, 50, 75, 100] : List ℤ).getLastD 0 = 100 := rfl
  have hhead : ([0, 25, 50, 75, 100] : List ℤ).headD 0 = 0 := rfl
  unfold discretize_value
  rw [hlast, hhead]
  simp only [findBin, List.length_cons, List.length_nil]
  split_ifs <;> first | rfl | omega

lemma discretize_tertile (v : ℤ) :
    discretize_value v [0, 33, 66, 100] =
      some (if v < 33 then 0 else if v < 66 then 1 else 2) := by
  have hlast : ([0, 33, 66, 100] : List ℤ).getLastD 0 = 100 := rfl
  have hhead : ([0, 33, 66, 100] : List ℤ).headD 0 = 0 := rfl
  unfold discretize_value
  rw [hlast, hhead]
  simp only [findBin, List.length_cons, List.length_nil]
  split_ifs <;> first | rfl | omega

lemma get_discrete_state_index_eq (n : PetNeeds) :
    get_discrete_state_index n =
      some ((if n.hunger < 25 then 0 else if n.hunger < 50 then 1
              else if n.hunger < 75 then 2 else 3) * 48
        + (if n.happiness < 25 then 0 else if n.happiness < 50 then 1
              else if n.happiness < 75 then 2 else 3) * 12
        + (if n.energy < 25 then 0 else if n.energy < 50 then 1
              else if n.energy < 75 then 2 else 3) * 3
        + (if n.cleanliness < 33 then 0 else if n.cleanliness < 66 then 1 else 2)) := by
  simp only [get_discrete_state_index, HUNGER_BINS, HAPPINESS_BINS, ENERGY_BINS,
    CLEANLINESS_BINS, discretize_quartile, discretize_tertile]
  norm_num [NUM_HAPPINESS_STATES, NUM_ENERGY_STATES, NUM_CLEANLINESS_STATES,
    HAPPINESS_BINS, ENERGY_BINS, CLEANLINESS_BINS]

/-- C4: for every integer value and each of the four configured boundary
lists, `discretize_value` returns (no exception) the bin index `i` with
`boundary[i] ≤ value < boundary[i+1]`, clamping values at or above the last
boundary to the last bin and values below the first boundary to bin 0; the
result is in `[0, number_of_bins - 1]` and is monotone non-decreasing in
the value. -/
theorem discretize_value_spec (B : List ℤ)
    (hB : B = HUNGER_BINS ∨ B = HAPPINESS_BINS ∨ B = ENERGY_BINS ∨ B = CLEANLINESS_BINS)
    (v w : ℤ) :
    ∃ i j, discretize_value v B = some i ∧ discretize_value w B = some j ∧
      i ≤ B.length - 2 ∧
      ((B.getD i 0 ≤ v ∧ v < B.getD (i + 1) 0) ∨
        (B.getLastD 0 ≤ v ∧ i = B.length - 2) ∨
        (v < B.headD 0 ∧ i = 0)) ∧
      (v ≤ w → i ≤ j) := by
  have h4 : ∀ x y : ℤ, x ≤ y →
      (if x < 25 then (0:ℕ) else if x < 50 then 1 else if x < 75 then 2 else 3) ≤
      (if y < 25 then (0:ℕ) else if y < 50 then 1 else if y < 75 then 2 else 3) := by
    intro x y hxy; split_ifs <;> omega
  have h3 : ∀ x y : ℤ, x ≤ y →
      (if x < 33 then (0:ℕ) else if x < 66 then 1 else 2) ≤
      (if y < 33 then (0:ℕ) else if y < 66 then 1 else 2) := by
    intro x y hxy; split_ifs <;> omega
  rcases hB with rfl | rfl | rfl | rfl <;>
    [ (rw [show HUNGER_BINS = [0, 25, 50, 75, 100] from rfl]);
      (rw [show HAPPINESS_BINS = [0, 25, 50, 75, 100] from rfl]);
      (rw [show ENERGY_BINS = [0, 25, 50, 75, 100] from rfl]);
      (rw [show CLEANLINESS_BINS = [0, 33, 66, 100] from rfl]) ]
  case inl | inr.inl | inr.inr.inl =>
    refine ⟨_, _, discretize_quartile v, discretize_quartile w, ?_, ?_, fun hvw => h4 v w hvw⟩
    · split_ifs <;> simp
    · split_ifs <;> simp [List.getD] <;> omega
  case inr.inr.inr =>
    refine ⟨_, _, discretize_tertile v, discretize_tertile w, ?_, ?_, fun hvw => h3 v w hvw⟩
    · split_ifs <;> simp
    · split_ifs <;> simp [List.getD] <;> omega

/-- Witness for C4 at `HUNGER_BINS`, `v = 10`, `w = 30`. -/
theorem discretize_value_spec_witness :
    ∃ i j, discretize_value 10 HUNGER_BINS = some i ∧
      discretize_value 30 HUNGER_BINS = some j ∧
      i ≤ HUNGER_BINS.length - 2 ∧
      ((HUNGER_BINS.getD i 0 ≤ 10 ∧ (10:ℤ) < HUNGER_BINS.getD (i + 1) 0) ∨
        (HUNGER_BINS.getLastD 0 ≤ 10 ∧ i = HUNGER_BINS.length - 2) ∨
        ((10:ℤ) < HUNGER_BINS.headD 0 ∧ i = 0)) ∧
      ((10:ℤ) ≤ 30 → i ≤ j) :=
  discretize_value_spec HUNGER_BINS (Or.inl rfl) 10 30

/-- C6: `get_discrete_state_index` is the row-major mixed-radix encoding
`h*(4*4*3) + p*(4*3) + e*3 + c` of the four per-need bin indices (4, 4, 4,
3 bins); the result is below `192 = TOTAL_NUM_DISCRETE_STATES`, and
distinct in-range bin-index tuples give distinct state indices. -/
theorem get_discrete_state_index_spec (n : PetNeeds) :
    ∃ h p e c : ℕ,
      discretize_value n.hunger HUNGER_BINS = some h ∧
      discretize_value n.happiness HAPPINESS_BINS = some p ∧
      discretize_value n.energy ENERGY_BINS = some e ∧
      discretize_value n.cleanliness CLEANLINESS_BINS = some c ∧
      h < 4 ∧ p < 4 ∧ e < 4 ∧ c < 3 ∧
      get_discrete_state_index n = some (h * (4 * 4 * 3) + p * (4 * 3) + e * 3 + c) ∧
      h * (4 * 4 * 3) + p * (4 * 3) + e * 3 + c < 192 ∧
      TOTAL_NUM_DISCRETE_STATES = 192 ∧
      (∀ h' p' e' c' : ℕ, h' < 4 → p' < 4 → e' < 4 → c' < 3 →
        h' * (4 * 4 * 3) + p' * (4 * 3) + e' * 3 + c' =
          h * (4 * 4 * 3) + p * (4 * 3) + e * 3 + c →
        h' = h ∧ p' = p ∧ e' = e ∧ c' = c) := by
  have e1 : discretize_value n.hunger HUNGER_BINS =
      some (if n.hunger < 25 then 0 else if n.hunger < 50 then 1
            else if n.hunger < 75 then 2 else 3) := by
    rw [show HUNGER_BINS = [0, 25, 50, 75, 100] from rfl]; exact discretize_quartile _
  have e2 : discretize_value n.happiness HAPPINESS_BINS =
      some (if n.happiness < 25 then 0 else if n.happiness < 50 then 1
            else if n.happiness < 75 then 2 else 3) := by
    rw [show HAPPINESS_BINS = [0, 25, 50, 75, 100] from rfl]; exact discretize_quartile _
  have e3 : discretize_value n.energy ENERGY_BINS =
      some (if n.energy < 25 then 0 else if n.energy < 50 then 1
            else if n.energy < 75 then 2 else 3) := by
    rw [show ENERGY_BINS = [0, 25, 50, 75, 100] from rfl]; exact discretize_quartile _
  have e4 : discretize_value n.cleanliness CLEANLINESS_BINS =
      some (if n.cleanliness < 33 then 0 else if n.cleanliness < 66 then 1 else 2) := by
    rw [show CLEANLINESS_BINS = [0, 33, 66, 100] from rfl]; exact discretize_tertile _
  have main : ∀ a b c d : ℕ, a < 4 → b < 4 → c < 4 → d < 3 →
      a * (4 * 4 * 3) + b * (4 * 3) + c * 3 + d < 192 ∧
      (∀ h' p' e' c' : ℕ, h' < 4 → p' < 4 → e' < 4 → c' < 3 →
        h' * (4 * 4 * 3) + p' * (4 * 3) + e' * 3 + c' =
          a * (4 * 4 * 3) + b * (4 * 3) + c * 3 + d →
        h' = a ∧ p' = b ∧ e' = c ∧ c' = d) := by
    intro a b c d ha hb hc hd
    refine ⟨by omega, ?_⟩
    intro h' p' e' c' hh hp he hcl heq
    omega
  have ha : (if n.hunger < 25 then 0 else if n.hunger < 50 then 1
      else if n.hunger < 75 then 2 else 3) < 4 := by split_ifs <;> omega
  have hb : (if n.happiness < 25 then 0 else if n.happiness < 50 then 1
      else if n.happiness < 75 then 2 else 3) < 4 := by split_ifs <;> omega
  have hc : (if n.energy < 25 then 0 else if n.energy < 50 then 1
      else if n.energy < 75 then 2 else 3) < 4 := by split_ifs <;> omega
  have hd : (if n.cleanliness < 33 then 0 else if n.cleanliness < 66 then 1 else 2) < 3 := by
    split_ifs <;> omega
  obtain ⟨hbound, hinj⟩ := main _ _ _ _ ha hb hc hd
  exact ⟨_, _, _, _, e1, e2, e3, e4, ha, hb, hc, hd,
    by rw [get_discrete_state_index_eq], hbound, rfl, hinj⟩

/-- Witness for C6 at needs (10, 60, 80, 20). -/
theorem get_discrete_state_index_spec_witness :
    ∃ h p e c : ℕ,
      discretize_value (10:ℤ) HUNGER_BINS = some h ∧
      discretize_value (60:ℤ) HAPPINESS_BINS = some p ∧
      discretize_value (80:ℤ) ENERGY_BINS = some e ∧
      discretize_value (20:ℤ) CLEANLINESS_BINS = some c ∧
      h < 4 ∧ p < 4 ∧ e < 4 ∧ c < 3 ∧
      get_discrete_state_index ⟨10, 60, 80, 20⟩ =
        some (h * (4 * 4 * 3) + p * (4 * 3) + e * 3 + c) ∧
      h * (4 * 4 * 3) + p * (4 * 3) + e * 3 + c < 192 ∧
      TOTAL_NUM_DISCRETE_STATES = 192 ∧
      (∀ h' p' e' c' : ℕ, h' < 4 → p' < 4 → e' < 4 → c' < 3 →
        h' * (4 * 4 * 3) + p' * (4 * 3) + e' * 3 + c' =
          h * (4 * 4 * 3) + p * (4 * 3) + e * 3 + c →
        h' = h ∧ p' = p ∧ e' = e ∧ c' = c) :=
  get_discrete_state_index_spec ⟨10, 60, 80, 20⟩

/-! ## C1: the reward function matches its §4.5 description -/

lemma ite_sub_acc (c : Prop) [Decidable c] (r x : ℚ) :
    (if c then r - x else r) = r + (if c then -x else 0) := by
  split_ifs <;> ring

lemma ite_add_acc (c : Prop) [Decidable c] (r x : ℚ) :
    (if c then r + x else r) = r + (if c then x else 0) := by
  split_ifs <;> ring

lemma hunger_chain (hp hc : ℤ) (r : ℚ) :
    (if hc < hp then r + ((hp - hc : ℤ) : ℚ) * 0.2
     else if hc > 85 ∧ hc > hp then r - ((hc - hp : ℤ) : ℚ) * 0.3 else r)
    = r + ((if hc < hp then ((hp - hc : ℤ) : ℚ) * 0.2 else 0)
         + (if hc > 85 ∧ hc > hp then -(((hc - hp : ℤ) : ℚ) * 0.3) else 0)) := by
  split_ifs <;> first | ring1 | (exfalso; omega)

lemma happiness_chain (pp pc : ℤ) (r : ℚ) :
    (if pc > pp then r + ((pc - pp : ℤ) : ℚ) * 0.3
     else if pc < 15 ∧ pc < pp then r - ((pp - pc : ℤ) : ℚ) * 0.4 else r)
    = r + ((if pc > pp then ((pc - pp : ℤ) : ℚ) * 0.3 else 0)
         + (if pc < 15 ∧ pc < pp then -(((pp - pc : ℤ) : ℚ) * 0.4) else 0)) := by
  split_ifs <;> first | ring1 | (exfalso; omega)

lemma energy_chain (ep ec : ℤ) (r : ℚ) :
    (if ec > ep then r + ((ec - ep : ℤ) : ℚ) * 0.15
     else if ec < 15 ∧ ec < ep then r - ((ep - ec : ℤ) : ℚ) * 0.2 else r)
    = r + ((if ec > ep then ((ec - ep : ℤ) : ℚ) * 0.15 else 0)
         + (if ec < 15 ∧ ec < ep then -(((ep - ec : ℤ) : ℚ) * 0.2) else 0)) := by
  split_ifs <;> first | ring1 | (exfalso; omega)

lemma cleanliness_chain (cp cc : ℤ) (r : ℚ) :
    (if cc > cp then r + ((cc - cp : ℤ) : ℚ) * 0.1
     else if cc < 15 ∧ cc < cp then r - ((cp - cc : ℤ) : ℚ) * 0.15 else r)
    = r + ((if cc > cp then ((cc - cp : ℤ) : ℚ) * 0.1 else 0)
         + (if cc < 15 ∧ cc < cp then -(((cp - cc : ℤ) : ℚ) * 0.15) else 0)) := by
  split_ifs <;> first | ring1 | (exfalso; omega)

/-- C1: for every pair of need vectors, action name and alive flags,
`calculate_reward` equals the §4.5 reference reward: −200 exactly when
alive flips to dead, 0 when already dead, otherwise the rounded sum of the
per-need terms, flat bad-band penalties and healthy-band bonus. -/
theorem calculate_reward_eq_rewardSpec (previous_needs current_needs : PetNeeds)
    (action_taken : Option String) (is_alive_now was_alive_before : Bool) :
    calculate_reward previous_needs current_needs action_taken is_alive_now was_alive_before
      = rewardSpec previous_needs current_needs is_alive_now was_alive_before := by
  cases is_alive_now <;> cases was_alive_before
  case false.false => simp [calculate_reward, rewardSpec]
  case false.true => simp [calculate_reward, rewardSpec]
  case true.false =>
    simp only [calculate_reward, rewardSpec]
    rw [hunger_chain, happiness_chain, energy_chain, cleanliness_chain,
      ite_sub_acc, ite_sub_acc, ite_sub_acc, ite_sub_acc, ite_add_acc]
    simp only [Bool.not_true, Bool.false_eq_true, eq_self_iff_true, false_and,
      and_false, and_true, true_and, if_false, if_true, ite_false, ite_true]
    congr 1
    ring
  case true.true =>
    simp only [calculate_reward, rewardSpec]
    rw [hunger_chain, happiness_chain, energy_chain, cleanliness_chain,
      ite_sub_acc, ite_sub_acc, ite_sub_acc, ite_sub_acc, ite_add_acc]
    simp only [Bool.not_true, Bool.false_eq_true, eq_self_iff_true, false_and,
      and_false, and_true, true_and, if_false, if_true, ite_false, ite_true]
    congr 1
    ring

/-! ## C2: death is irreversible, dead states are inert -/

lemma pyInt_nonneg {q : ℚ} (h : 0 ≤ q) : 0 ≤ pyInt q := by
  unfold pyInt
  rw [if_pos h]
  exact Int.floor_nonneg.mpr h

lemma applyOp_dead (p : Pet) (op : Op) (h : p.state.is_alive = false) : applyOp p op = p := by
  cases op <;>
    simp [applyOp, Pet.tick, Pet.feed, Pet.play, Pet.sleep, Pet.clean, h]

lemma applyOps_dead : ∀ (ops : List Op) (p : Pet), p.state.is_alive = false →
    (applyOps p ops).state.is_alive = false := by
  intro ops
  induction ops with
  | nil => intro p h; simpa [applyOps] using h
  | cons op rest ih =>
    intro p h
    have hstep : applyOps p (op :: rest) = applyOps (applyOp p op) rest := rfl
    rw [hstep, applyOp_dead p op h]
    exact ih p h

/-- C2: an alive pet with hunger 100 dies on the next tick; every operation
on a dead pet leaves the whole `Pet` unchanged; hence `is_alive` never
returns to true under any sequence of operations. -/
theorem death_irreversible :
    (∀ (p : Pet) (now : ℚ), p.state.is_alive = true → p.state.needs.hunger = 100 →
      p.last_tick_time ≤ now → (p.tick now).state.is_alive = false) ∧
    (∀ (p : Pet) (op : Op), p.state.is_alive = false → applyOp p op = p) ∧
    (∀ (p : Pet) (ops : List Op), p.state.is_alive = false →
      (applyOps p ops).state.is_alive = false) := by
  refine ⟨?_, fun p op h => applyOp_dead p op h, fun p ops h => applyOps_dead ops p h⟩
  intro p now halive hhunger hlt
  have hq : 0 ≤ hunger_increase_rate_per_hour * ((now - p.last_tick_time) / 3600) := by
    have h0 : (0:ℚ) ≤ now - p.last_tick_time := by linarith
    have h1 : (0:ℚ) ≤ (now - p.last_tick_time) / 3600 := by positivity
    unfold hunger_increase_rate_per_hour
    positivity
  have hpy := pyInt_nonneg hq
  simp only [Pet.tick, halive, hhunger, Bool.not_true, Bool.false_eq_true, if_false]
  split_ifs with hcond
  · rfl
  · exfalso
    apply hcond
    left
    omega

/-- Witness for C2: a concrete alive pet with hunger 100 dies on tick; a
concrete dead pet is unchanged by `feed` and stays dead under a sequence. -/
theorem death_irreversible_witness :
    (Pet.tick (⟨⟨0, "w", 0, 0, ⟨100, 50, 50, 50⟩, true, 0⟩, 0, 0⟩ : Pet) 3600).state.is_alive
      = false ∧
    applyOp (⟨⟨0, "d", 0, 0, ⟨100, 0, 0, 0⟩, false, 0⟩, 0, 0⟩ : Pet) (Op.feed 25 1) =
      (⟨⟨0, "d", 0, 0, ⟨100, 0, 0, 0⟩, false, 0⟩, 0, 0⟩ : Pet) ∧
    (applyOps (⟨⟨0, "d", 0, 0, ⟨100, 0, 0, 0⟩, false, 0⟩, 0, 0⟩ : Pet)
      [Op.tick 1, Op.feed 25 2, Op.play 20 3, Op.sleep 50 4, Op.clean 40 5]).state.is_alive
      = false :=
  ⟨death_irreversible.1 _ 3600 rfl rfl (by norm_num),
   death_irreversible.2.1 _ _ rfl,
   death_irreversible.2.2 _ _ rfl⟩

/-! ## C3: the needs-bounded invariant -/

/-- The `[0,100]` bounds the pydantic model (`Field(ge=0, le=100)` on every
need) declares for a `PetNeeds` value. -/
def NeedsInRange (n : PetNeeds) : Prop :=
  0 ≤ n.hunger ∧ n.hunger ≤ 100 ∧ 0 ≤ n.happiness ∧ n.happiness ≤ 100 ∧
  0 ≤ n.energy ∧ n.energy ≤ 100 ∧ 0 ≤ n.cleanliness ∧ n.cleanliness ≤ 100

lemma tick_preserves_range (p : Pet) (now : ℚ) (hlt : p.last_tick_time ≤ now)
    (hn : NeedsInRange p.state.needs) : NeedsInRange (p.tick now).state.needs := by
  by_cases hal : p.state.is_alive = true
  · have hhrs : (0:ℚ) ≤ (now - p.last_tick_time) / 3600 := by
      have h0 : (0:ℚ) ≤ now - p.last_tick_time := by linarith
      positivity
    have h1 : 0 ≤ pyInt (hunger_increase_rate_per_hour * ((now - p.last_tick_time) / 3600)) :=
      pyInt_nonneg (by unfold hunger_increase_rate_per_hour; positivity)
    have h2 : 0 ≤ pyInt (happiness_decay_rate_per_hour * ((now - p.last_tick_time) / 3600)) :=
      pyInt_nonneg (by unfold happiness_decay_rate_per_hour; positivity)
    have h3 : 0 ≤ pyInt (energy_decay_rate_per_hour * ((now - p.last_tick_time) / 3600)) :=
      pyInt_nonneg (by unfold energy_decay_rate_per_hour; positivity)
    have h4 : 0 ≤ pyInt (cleanliness_decay_rate_per_hour * ((now - p.last_tick_time) / 3600)) :=
      pyInt_nonneg (by unfold cleanliness_decay_rate_per_hour; positivity)
    obtain ⟨b1, b2, b3, b4, b5, b6, b7, b8⟩ := hn
    simp only [Pet.tick, hal, Bool.not_true, Bool.false_eq_true, if_false, NeedsInRange]
    refine ⟨?_, ?_, ?_, ?_, ?_, ?_, ?_, ?_⟩ <;> omega
  · simp only [Bool.not_eq_true] at hal
    simp only [Pet.tick, hal, Bool.not_false, if_true]
    exact hn

lemma feed_preserves_range (p : Pet) (amount : ℤ) (now : ℚ)
    (hlt : p.last_tick_time ≤ now) (ha : 0 ≤ amount)
    (hn : NeedsInRange p.state.needs) : NeedsInRange (p.feed amount now).state.needs := by
  by_cases hal : p.state.is_alive = true
  · have hdiv : 0 ≤ pyFloorDiv amount 5 := Int.fdiv_nonneg ha (by norm_num)
    obtain ⟨b1, b2, b3, b4, b5, b6, b7, b8⟩ := hn
    simp only [Pet.feed, hal, Bool.not_true, Bool.false_eq_true, if_false]
    refine tick_preserves_range _ now hlt ?_
    simp only [NeedsInRange]
    refine ⟨?_, ?_, ?_, ?_, ?_, ?_, ?_, ?_⟩ <;> omega
  · simp only [Bool.not_eq_true] at hal
    simp only [Pet.feed, hal, Bool.not_false, if_true]
    exact hn

lemma play_preserves_range (p : Pet) (duration_effect : ℤ) (now : ℚ)
    (hlt : p.last_tick_time ≤ now) (hd : 0 ≤ duration_effect)
    (hn : NeedsInRange p.state.needs) : NeedsInRange (p.play duration_effect now).state.needs := by
  by_cases hal : p.state.is_alive = true
  · have hdiv : 0 ≤ pyFloorDiv duration_effect 2 := Int.fdiv_nonneg hd (by norm_num)
    obtain ⟨b1, b2, b3, b4, b5, b6, b7, b8⟩ := hn
    simp only [Pet.play, hal, Bool.not_true, Bool.false_eq_true, if_false]
    refine tick_preserves_range _ now hlt ?_
    simp only [NeedsInRange]
    refine ⟨?_, ?_, ?_, ?_, ?_, ?_, ?_, ?_⟩ <;> omega
  · simp only [Bool.not_eq_true] at hal
    simp only [Pet.play, hal, Bool.not_false, if_true]
    exact hn

lemma sleep_preserves_range (p : Pet) (duration_effect : ℤ) (now : ℚ)
    (hlt : p.last_tick_time ≤ now) (hd : 0 ≤ duration_effect)
    (hn : NeedsInRange p.state.needs) : NeedsInRange (p.sleep duration_effect now).state.needs := by
  by_cases hal : p.state.is_alive = true
  · have hdiv : 0 ≤ pyFloorDiv duration_effect 10 := Int.fdiv_nonneg hd (by norm_num)
    obtain ⟨b1, b2, b3, b4, b5, b6, b7, b8⟩ := hn
    simp only [Pet.sleep, hal, Bool.not_true, Bool.false_eq_true, if_false]
    refine tick_preserves_range _ now hlt ?_
    simp only [NeedsInRange]
    refine ⟨?_, ?_, ?_, ?_, ?_, ?_, ?_, ?_⟩ <;> omega
  · simp only [Bool.not_eq_true] at hal
    simp only [Pet.sleep, hal, Bool.not_false, if_true]
    exact hn

lemma clean_preserves_range (p : Pet) (amount : ℤ) (now : ℚ)
    (hlt : p.last_tick_time ≤ now) (ha : 0 ≤ amount)
    (hn : NeedsInRange p.state.needs) : NeedsInRange (p.clean amount now).state.needs := by
  by_cases hal : p.state.is_alive = true
  · have hdiv : 0 ≤ pyFloorDiv amount 8 := Int.fdiv_nonneg ha (by norm_num)
    obtain ⟨b1, b2, b3, b4, b5, b6, b7, b8⟩ := hn
    simp only [Pet.clean, hal, Bool.not_true, Bool.false_eq_true, if_false]
    refine tick_preserves_range _ now hlt ?_
    simp only [NeedsInRange]
    refine ⟨?_, ?_, ?_, ?_, ?_, ?_, ?_, ?_⟩ <;> omega
  · simp only [Bool.not_eq_true] at hal
    simp only [Pet.clean, hal, Bool.not_false, if_true]
    exact hn

/-- C3: every mutation — `tick` with non-negative elapsed time, and `feed`,
`play`, `sleep`, `clean` with non-negative parameters — keeps all four needs
inside `[0,100]`. -/
theorem needs_bounded_invariant (p : Pet) (now : ℚ)
    (hlt : p.last_tick_time ≤ now) (hn : NeedsInRange p.state.needs) :
    NeedsInRange (p.tick now).state.needs ∧
    (∀ amount : ℤ, 0 ≤ amount → NeedsInRange (p.feed amount now).state.needs) ∧
    (∀ duration_effect : ℤ, 0 ≤ duration_effect →
      NeedsInRange (p.play duration_effect now).state.needs) ∧
    (∀ duration_effect : ℤ, 0 ≤ duration_effect →
      NeedsInRange (p.sleep duration_effect now).state.needs) ∧
    (∀ amount : ℤ, 0 ≤ amount → NeedsInRange (p.clean amount now).state.needs) :=
  ⟨tick_preserves_range p now hlt hn,
   fun a ha => feed_preserves_range p a now hlt ha hn,
   fun d hd => play_preserves_range p d now hlt hd hn,
   fun d hd => sleep_preserves_range p d now hlt hd hn,
   fun a ha => clean_preserves_range p a now hlt ha hn⟩

/-- Witness for C3: the invariant is preserved by `feed 25` on a fresh pet
one hour after creation. -/
theorem needs_bounded_invariant_witness :
    NeedsInRange ((Pet.mk_new 0 "w" 0 0 0 0).feed 25 3600).state.needs :=
  (needs_bounded_invariant (Pet.mk_new 0 "w" 0 0 0 0) 3600 (by norm_num [Pet.mk_new])
    (by refine ⟨?_, ?_, ?_, ?_, ?_, ?_, ?_, ?_⟩ <;> norm_num [Pet.mk_new, PetNeeds.default])).2.1
    25 (by norm_num)

/-! ## C5: the Q-table update -/

lemma le_foldl_max (l : List ℚ) : ∀ init : ℚ,
    init ≤ l.foldl max init ∧ ∀ x ∈ l, x ≤ l.foldl max init := by
  induction l with
  | nil => intro init; exact ⟨le_refl _, by simp⟩
  | cons a t ih =>
    intro init
    refine ⟨le_trans (le_max_left init a) (ih (max init a)).1, ?_⟩
    intro x hx
    rcases List.mem_cons.mp hx with rfl | hx
    · exact le_trans (le_max_right init x) (ih (max init x)).1
    · exact (ih (max init a)).2 x hx

lemma foldl_max_mem (l : List ℚ) : ∀ init : ℚ,
    l.foldl max init = init ∨ l.foldl max init ∈ l := by
  induction l with
  | nil => intro init; exact Or.inl rfl
  | cons a t ih =>
    intro init
    rcases ih (max init a) with h | h
    · rcases max_choice init a with hm | hm
      · exact Or.inl (by rw [List.foldl_cons, h, hm])
      · exact Or.inr (by rw [List.foldl_cons, h, hm]; exact List.mem_cons_self a t)
    · exact Or.inr (List.mem_cons_of_mem a h)

lemma rowMax_is_max (q : QTable) (s : ℕ) :
    (∀ a < NUM_ACTIONS, q s a ≤ rowMax q s) ∧
    (∃ a < NUM_ACTIONS, rowMax q s = q s a) := by
  constructor
  · intro a ha
    exact (le_foldl_max _ _).2 (q s a)
      (List.mem_map.mpr ⟨a, List.mem_range.mpr ha, rfl⟩)
  · rcases foldl_max_mem ((List.range NUM_ACTIONS).map (fun a => q s a)) (q s 0) with h | h
    · exact ⟨0, by decide, h⟩
    · obtain ⟨a, ha, hqa⟩ := List.mem_map.mp h
      exact ⟨a, List.mem_range.mp ha, hqa.symm⟩

/-- C5: `update_q_table s a reward s' done` sets `Q[s,a]` to
`Q[s,a] + lr·(reward + gamma·F − Q[s,a])` where `F` is `0` when `done` and
the maximum of row `s'` otherwise (`rowMax` really is that maximum), and
leaves every other cell unchanged. -/
theorem update_q_table_spec (lr gamma : ℚ) (q : QTable) (s a : ℕ) (reward : ℚ)
    (s' : ℕ) (done : Bool) :
    update_q_table lr gamma q s a reward s' done s a
      = q s a + lr * (reward + gamma * (if done then 0 else rowMax q s') - q s a) ∧
    (∀ a' < NUM_ACTIONS, q s' a' ≤ rowMax q s') ∧
    (∃ a' < NUM_ACTIONS, rowMax q s' = q s' a') ∧
    (∀ s₂ a₂ : ℕ, ¬(s₂ = s ∧ a₂ = a) →
      update_q_table lr gamma q s a reward s' done s₂ a₂ = q s₂ a₂) := by
  refine ⟨?_, (rowMax_is_max q s').1, (rowMax_is_max q s').2, ?_⟩
  · simp [update_q_table]
  · intro s₂ a₂ hne
    simp only [update_q_table, if_neg hne]

/-- Witness for C5 on the zero table at (s,a) = (3,2), reward 5,
s' = 7, done = false. -/
theorem update_q_table_spec_witness :
    update_q_table (1/2) (9/10) (fun _ _ => 0) 3 2 5 7 false 3 2
      = (fun _ _ => (0:ℚ)) 3 2 + (1/2) * (5 + (9/10) *
          (if false then 0 else rowMax (fun _ _ => 0) 7) - (fun _ _ => (0:ℚ)) 3 2) ∧
    (∀ a' < NUM_ACTIONS, (fun _ _ => (0:ℚ)) 7 a' ≤ rowMax (fun _ _ => 0) 7) ∧
    (∃ a' < NUM_ACTIONS, rowMax (fun _ _ => 0) 7 = (fun _ _ => (0:ℚ)) 7 a') ∧
    (∀ s₂ a₂ : ℕ, ¬(s₂ = 3 ∧ a₂ = 2) →
      update_q_table (1/2) (9/10) (fun _ _ => 0) 3 2 5 7 false s₂ a₂
        = (fun _ _ => (0:ℚ)) s₂ a₂) :=
  update_q_table_spec (1/2) (9/10) (fun _ _ => 0) 3 2 5 7 false

/-! ## C7 and C8: how the trainer treats out-of-range needs and
out-of-catalog actions -/

/-- An out-of-range need value (hunger = 150) is not skipped: it is clamped
to the last hunger bin and the transition still produces a Q-table update
(state index 175 = 3·48 + 2·12 + 2·3 + 1). -/
theorem out_of_range_transition_updates :
    processTransition (1/10) (99/100) (fun _ _ => 0)
      ⟨some ⟨150, 50, 50, 50⟩, some "feed_small", some 1, some ⟨50, 50, 50, 50⟩, some false⟩
      = some (update_q_table (1/10) (99/100) (fun _ _ => 0) 175 0 1 127 false) := rfl

/-- Amended C7: a complete transition whose action is in the catalog is
never skipped for out-of-range needs — `get_discrete_state_index` succeeds
on every integer needs vector (out-of-range values silently clamp into the
boundary bins) and the trainer applies the Q-table update. -/
theorem out_of_range_clamped_not_skipped (lr gamma : ℚ) (q : QTable)
    (sd nd : PetNeeds) (an : String) (r : ℚ) (dn : Bool) (han : an ∈ ACTIONS) :
    ∃ si ni ai, get_discrete_state_index sd = some si ∧
      get_discrete_state_index nd = some ni ∧
      ACTIONS.indexOf? an = some ai ∧
      processTransition lr gamma q ⟨some sd, some an, some r, some nd, some dn⟩
        = some (update_q_table lr gamma q si ai r ni dn) := by
  have eq_s := get_discrete_state_index_eq sd
  have eq_n := get_discrete_state_index_eq nd
  fin_cases han <;>
    exact ⟨_, _, _, eq_s, eq_n, rfl, by simp only [processTransition, eq_s, eq_n]; rfl⟩

/-- Witness for the amended C7 at a transition with hunger = 150. -/
theorem out_of_range_clamped_not_skipped_witness :
    ∃ si ni ai, get_discrete_state_index ⟨150, 50, 50, 50⟩ = some si ∧
      get_discrete_state_index ⟨50, 50, 50, 50⟩ = some ni ∧
      ACTIONS.indexOf? "feed_small" = some ai ∧
      processTransition (1/10) (99/100) (fun _ _ => 0)
        ⟨some ⟨150, 50, 50, 50⟩, some "feed_small", some 1, some ⟨50, 50, 50, 50⟩, some false⟩
        = some (update_q_table (1/10) (99/100) (fun _ _ => 0) si ai 1 ni false) :=
  out_of_range_clamped_not_skipped (1/10) (99/100) (fun _ _ => 0)
    ⟨150, 50, 50, 50⟩ ⟨50, 50, 50, 50⟩ "feed_small" 1 false (by decide)

/-- A record with a null action is skipped by the missing-data check —
it is not remapped to "do_nothing" and contributes no update. -/
theorem null_action_skipped :
    processTransition (1/10) (99/100) (fun _ _ => 0)
      ⟨some ⟨50, 50, 50, 50⟩, none, some 1, some ⟨50, 50, 50, 50⟩, some false⟩ = none := rfl

/-- Amended C8: only the literal action name "invalid_action" is remapped
to the "do_nothing" index and updated; a null action is skipped by the
missing-data check before the remap logic runs, and every other name
absent from the catalog is skipped with a warning. -/
theorem out_of_catalog_action_handling (lr gamma : ℚ) (q : QTable)
    (sd nd : PetNeeds) (r : ℚ) (dn : Bool) :
    (∃ si ni, get_discrete_state_index sd = some si ∧
      get_discrete_state_index nd = some ni ∧
      "do_nothing" ∈ ACTIONS ∧
      processTransition lr gamma q ⟨some sd, some "invalid_action", some r, some nd, some dn⟩
        = some (update_q_table lr gamma q si (ACTIONS.indexOf "do_nothing") r ni dn)) ∧
    processTransition lr gamma q ⟨some sd, none, some r, some nd, some dn⟩ = none ∧
    (∀ an : String, an ∉ ACTIONS → an ≠ "invalid_action" →
      processTransition lr gamma q ⟨some sd, some an, some r, some nd, some dn⟩ = none) := by
  have eq_s := get_discrete_state_index_eq sd
  have eq_n := get_discrete_state_index_eq nd
  refine ⟨⟨_, _, eq_s, eq_n, by decide, by simp only [processTransition, eq_s, eq_n]; rfl⟩,
    rfl, ?_⟩
  intro an hnotin hne
  have hidx : ACTIONS.indexOf? an = none :=
    List.indexOf?_eq_none_iff.mpr (fun x hx hbeq => hnotin (eq_of_beq hbeq ▸ hx))
  simp only [processTransition, eq_s, eq_n, hidx, if_neg hne]

/-- Witness for the amended C8 at in-range needs and the name "feed". -/
theorem out_of_catalog_action_handling_witness :
    (∃ si ni, get_discrete_state_index ⟨50, 50, 50, 50⟩ = some si ∧
      get_discrete_state_index ⟨50, 50, 50, 50⟩ = some ni ∧
      "do_nothing" ∈ ACTIONS ∧
      processTransition (1/10) (99/100) (fun _ _ => 0)
        ⟨some ⟨50, 50, 50, 50⟩, some "invalid_action", some 1, some ⟨50, 50, 50, 50⟩, some false⟩
        = some (update_q_table (1/10) (99/100) (fun _ _ => 0) si
            (ACTIONS.indexOf "do_nothing") 1 ni false)) ∧
    processTransition (1/10) (99/100) (fun _ _ => 0)
      ⟨some ⟨50, 50, 50, 50⟩, none, some 1, some ⟨50, 50, 50, 50⟩, some false⟩ = none ∧
    (∀ an : String, an ∉ ACTIONS → an ≠ "invalid_action" →
      processTransition (1/10) (99/100) (fun _ _ => 0)
        ⟨some ⟨50, 50, 50, 50⟩, some an, some 1, some ⟨50, 50, 50, 50⟩, some false⟩ = none) :=
  out_of_catalog_action_handling (1/10) (99/100) (fun _ _ => 0)
    ⟨50, 50, 50, 50⟩ ⟨50, 50, 50, 50⟩ 1 false

/-! ## C10: episodes are coherent trajectories -/

lemma runSteps_shape (choose : ℕ → PetState → Option AgentAction) (clock : ℕ → ℚ) :
    ∀ (fuel s ci : ℕ) (pet : Pet),
      (∀ hne : runSteps choose clock fuel s ci pet ≠ [],
        ((runSteps choose clock fuel s ci pet).head hne).state = pet.state) ∧
      (∀ k, ∀ hk : k < (runSteps choose clock fuel s ci pet).length,
        ((runSteps choose clock fuel s ci pet).get ⟨k, hk⟩).step = s + k) ∧
      (∀ k, ∀ hk : k + 1 < (runSteps choose clock fuel s ci pet).length,
        ((runSteps choose clock fuel s ci pet).get ⟨k, Nat.lt_of_succ_lt hk⟩).next_state =
          ((runSteps choose clock fuel s ci pet).get ⟨k + 1, hk⟩).state ∧
        ((runSteps choose clock fuel s ci pet).get ⟨k, Nat.lt_of_succ_lt hk⟩).is_done
          = false) := by
  intro fuel
  induction fuel with
  | zero =>
    intro s ci pet
    exact ⟨fun hne => absurd rfl hne, fun k hk => absurd hk (by simp [runSteps]),
      fun k hk => absurd hk (by simp [runSteps])⟩
  | succ n ih =>
    intro s ci pet
    by_cases hal : pet.state.is_alive = true
    · have hL : runSteps choose clock (n + 1) s ci pet =
          if (stepRecord choose clock s ci pet).is_done
          then [stepRecord choose clock s ci pet]
          else stepRecord choose clock s ci pet ::
            runSteps choose clock n (s + 1) (ci + 2)
              (applyChoice pet (choose s pet.state) (clock ci)) := by
        simp [runSteps, hal]
      by_cases hdone : (stepRecord choose clock s ci pet).is_done = true
      · rw [if_pos hdone] at hL
        rw [hL]
        refine ⟨fun _ => rfl, ?_, ?_⟩
        · intro k hk
          simp only [List.length_singleton] at hk
          have hk0 : k = 0 := by omega
          subst hk0
          simp [stepRecord]
        · intro k hk
          simp only [List.length_singleton] at hk
          omega
      · rw [if_neg hdone] at hL
        rw [hL]
        obtain ⟨ihHead, ihStep, ihAdj⟩ :=
          ih (s + 1) (ci + 2) (applyChoice pet (choose s pet.state) (clock ci))
        refine ⟨fun _ => rfl, ?_, ?_⟩
        · intro k hk
          cases k with
          | zero => simp [stepRecord]
          | succ m =>
            have hk' : m < (runSteps choose clock n (s + 1) (ci + 2)
                (applyChoice pet (choose s pet.state) (clock ci))).length := by
              simpa using hk
            exact (ihStep m hk').trans (by omega)
        · intro k hk
          cases k with
          | zero =>
            have hlen : 0 < (runSteps choose clock n (s + 1) (ci + 2)
                (applyChoice pet (choose s pet.state) (clock ci))).length := by
              simpa using hk
            refine ⟨?_, by simpa using hdone⟩
            have h1 := List.get_mk_zero hlen
            calc (stepRecord choose clock s ci pet).next_state
                = (applyChoice pet (choose s pet.state) (clock ci)).state := rfl
              _ = ((runSteps choose clock n (s + 1) (ci + 2)
                    (applyChoice pet (choose s pet.state) (clock ci))).head
                    (List.length_pos.mp hlen)).state :=
                  (ihHead (List.length_pos.mp hlen)).symm
              _ = ((runSteps choose clock n (s + 1) (ci + 2)
                    (applyChoice pet (choose s pet.state) (clock ci))).get
                    ⟨0, hlen⟩).state := by rw [h1]
          | succ m =>
            exact ihAdj m (by simpa using hk)
    · have hal' : pet.state.is_alive = false := by simpa using hal
      have hL : runSteps choose clock (n + 1) s ci pet = [] := by simp [runSteps, hal']
      rw [hL]
      exact ⟨fun hne => absurd rfl hne, fun k hk => absurd hk (by simp),
        fun k hk => absurd hk (by simp)⟩

/-- C10: every list returned by `run_episode` is a coherent trajectory:
step fields are consecutive from 0, each record's `next_state` is the next
record's `state`, and `is_done` is false in every non-final record. -/
theorem run_episode_trajectory (choose : ℕ → PetState → Option AgentAction)
    (clock : ℕ → ℚ) (uuid : ℕ) (pet_name : String) (max_steps : ℕ) :
    (∀ k, ∀ hk : k < (run_episode choose clock uuid pet_name max_steps).length,
      ((run_episode choose clock uuid pet_name max_steps).get ⟨k, hk⟩).step = k) ∧
    (∀ k, ∀ hk : k + 1 < (run_episode choose clock uuid pet_name max_steps).length,
      ((run_episode choose clock uuid pet_name max_steps).get
          ⟨k, Nat.lt_of_succ_lt hk⟩).next_state =
        ((run_episode choose clock uuid pet_name max_steps).get ⟨k + 1, hk⟩).state) ∧
    (∀ k, ∀ hk : k + 1 < (run_episode choose clock uuid pet_name max_steps).length,
      ((run_episode choose clock uuid pet_name max_steps).get
          ⟨k, Nat.lt_of_succ_lt hk⟩).is_done = false) := by
  obtain ⟨-, hstep, hadj⟩ := runSteps_shape choose clock max_steps 0 4
    (Pet.mk_new uuid pet_name (clock 0) (clock 1) (clock 2) (clock 3))
  exact ⟨fun k hk => (hstep k hk).trans (Nat.zero_add k),
    fun k hk => (hadj k hk).1, fun k hk => (hadj k hk).2⟩

lemma applyChoice_none_const (uuid : ℕ) (pet_name : String) (t : ℚ) :
    applyChoice (Pet.mk_new uuid pet_name t t t t) none t
      = Pet.mk_new uuid pet_name t t t t := by
  norm_num [applyChoice, Pet.tick, Pet.mk_new, PetNeeds.default, pyInt]

lemma episode_const_zero_list (uuid : ℕ) (pet_name : String) :
    run_episode (fun _ _ => none) (fun _ => 0) uuid pet_name 2 =
      [stepRecord (fun _ _ => none) (fun _ => 0) 0 4 (Pet.mk_new uuid pet_name 0 0 0 0),
       stepRecord (fun _ _ => none) (fun _ => 0) 1 6 (Pet.mk_new uuid pet_name 0 0 0 0)] := by
  have h := applyChoice_none_const uuid pet_name 0
  have hal : (Pet.mk_new uuid pet_name 0 0 0 0).state.is_alive = true := rfl
  simp [run_episode, runSteps, stepRecord, h, hal]

/-- Witness for C10 on a concrete two-step episode of the do-nothing
agent under a frozen clock. -/
theorem run_episode_trajectory_witness :
    ((run_episode (fun _ _ => none) (fun _ => 0) 0 "w" 2).get? 0).map
        TransitionRecord.step = some 0 ∧
    ((run_episode (fun _ _ => none) (fun _ => 0) 0 "w" 2).get? 1).map
        TransitionRecord.step = some 1 ∧
    ((run_episode (fun _ _ => none) (fun _ => 0) 0 "w" 2).get? 0).map
        TransitionRecord.next_state =
      ((run_episode (fun _ _ => none) (fun _ => 0) 0 "w" 2).get? 1).map
        TransitionRecord.state ∧
    ((run_episode (fun _ _ => none) (fun _ => 0) 0 "w" 2).get? 0).map
        TransitionRecord.is_done = some false := by
  have hlen : (run_episode (fun _ _ => none) (fun _ => 0) 0 "w" 2).length = 2 := by
    rw [episode_const_zero_list]; rfl
  have h0 : 0 < (run_episode (fun _ _ => none) (fun _ => 0) 0 "w" 2).length := by
    rw [hlen]; norm_num
  have h1 : 1 < (run_episode (fun _ _ => none) (fun _ => 0) 0 "w" 2).length := by
    rw [hlen]; norm_num
  obtain ⟨hs, hadj, hdone⟩ := run_episode_trajectory (fun _ _ => none) (fun _ => 0) 0 "w" 2
  rw [List.get?_eq_get h0, List.get?_eq_get h1]
  exact ⟨congrArg some (hs 0 h0), congrArg some (hs 1 h1),
    congrArg some (hadj 0 h1), congrArg some (hdone 0 h1)⟩

/-! ## C9: seeded determinism of the Random Agent -/

lemma random_episode_one_step (t : ℚ) :
    run_episode_random (fun _ => ⟨0, 10, 10, 30, 20, 0⟩) (fun _ => t) 0 "w" 1 =
      [stepRecord (fun _ s => randomAgentChoose ⟨0, 10, 10, 30, 20, 0⟩ s) (fun _ => t) 0 4
        (Pet.mk_new 0 "w" t t t t)] := by
  have h := applyChoice_none_const 0 "w" t
  have hchoice :
      randomAgentChoose ⟨0, 10, 10, 30, 20, 0⟩ (Pet.mk_new 0 "w" t t t t).state = none := by
    norm_num [randomAgentChoose, Pet.mk_new]
  have hal : (Pet.mk_new 0 "w" t t t t).state.is_alive = true := rfl
  simp [run_episode_random, run_episode, runSteps, stepRecord, hchoice, h, hal]

/-- Counterexample to C9 as stated: two executions with the same seed
(identical pseudo-random draw streams) but different wall-clock sample
streams produce different transition records — the record timestamps come
from `datetime.utcnow()`, which the seed does not control. -/
theorem same_seed_different_clock_differs :
    run_episode_random (fun _ => ⟨0, 10, 10, 30, 20, 0⟩) (fun _ => 0) 0 "w" 1
      ≠ run_episode_random (fun _ => ⟨0, 10, 10, 30, 20, 0⟩) (fun _ => 3600) 0 "w" 1 := by
  intro heq
  have h := congrArg (fun l => (l.get? 0).map TransitionRecord.timestamp) heq
  rw [random_episode_one_step 0, random_episode_one_step 3600] at h
  simp only [List.get?_cons_zero, Option.map_some, stepRecord] at h
  norm_num at h

/-- Amended C9: two executions of `run_episode` with the Random Agent that
start from the same seed (same pseudo-random draw stream) and observe the
same wall-clock samples produce identical transition-record sequences. -/
theorem run_episode_random_deterministic (draws₁ draws₂ : ℕ → RandDraws)
    (clock₁ clock₂ : ℕ → ℚ) (uuid : ℕ) (pet_name : String) (max_steps : ℕ)
    (hd : ∀ i, draws₁ i = draws₂ i) (hc : ∀ i, clock₁ i = clock₂ i) :
    run_episode_random draws₁ clock₁ uuid pet_name max_steps
      = run_episode_random draws₂ clock₂ uuid pet_name max_steps := by
  rw [funext hd, funext hc]

/-- Witness for the amended C9 at a concrete seed stream and clock. -/
theorem run_episode_random_deterministic_witness :
    run_episode_random (fun _ => ⟨1, 20, 15, 40, 30, 1⟩) (fun i => (i : ℚ)) 7 "w" 3
      = run_episode_random (fun _ => ⟨1, 20, 15, 40, 30, 1⟩) (fun i => (i : ℚ)) 7 "w" 3 :=
  run_episode_random_deterministic _ _ _ _ 7 "w" 3 (fun _ => rfl) (fun _ => rfl)

end Tamagotchi
